import Mathlib

/-
Verification of the ticket-triage reactive pipeline.

The Rust sources are embedded shallowly:
  - src/ticket.rs      : SupportTicket, ProcessingResult, ProcessedTicket,
                         merge_from, SentimentScore, SentimentLabel,
                         TicketCategory, TicketPriority
  - src/error.rs       : ProcessingError
  - src/pipeline.rs    : FieldMask (bitflags over u32), the From impl for
                         ProcessedTicket, the per-processor reactive task body,
                         wait_for_processing
  - src/ticket_store.rs: TicketStore (keyed map with atomic update)
  - src/processors/*   : the four processors; external collaborators
                         (whatlang detect, HTTP sentiment, LLM classification)
                         are passed in as function parameters.

f32 values (confidence scores, priority score arithmetic) are modelled as
rationals; at every concrete input examined here the f32 computation and the
rational computation select the same branch, since all compared quantities are
far from the decision thresholds relative to f32 rounding error.
-/

namespace TicketTriage

/-- ProcessingError from src/error.rs. -/
inductive ProcessingError where
  | TicketProcessingError (msg : String)
  | InvalidTicketData (msg : String)
  | NetworkError (msg : String)
  | LanguageDetectionError
  | TaskJoinError (msg : String)
  | SentimentAnalysis (msg : String)
  | ClassificationError (msg : String)
  | PriorityCalculationError (msg : String)
  | UnknownError (msg : String)
deriving DecidableEq, Repr

/-- The external language_enum crate is modelled by the constructors this
development mentions plus the catch-all used by to_language_enum. -/
inductive Language where
  | English
  | French
  | Spanish
  | German
  | other (name : String)
deriving DecidableEq, Repr

/-- SentimentLabel from src/ticket.rs. -/
inductive SentimentLabel where
  | VeryPositive
  | Positive
  | Neutral
  | Negative
  | VeryNegative
deriving DecidableEq, Repr

/-- SentimentScore from src/ticket.rs; confidence (f32) modelled as Rat. -/
structure SentimentScore where
  label : SentimentLabel
  confidence : Rat
deriving DecidableEq, Repr

/-- TicketCategory from src/ticket.rs. -/
inductive TicketCategory where
  | Billing
  | Account
  | General
  | Technical
  | Sales
  | Feedback
  | Other
deriving DecidableEq, Repr

/-- TicketPriority from src/ticket.rs. -/
inductive TicketPriority where
  | Low
  | Medium
  | High
  | Critical
deriving DecidableEq, Repr

/-- SupportTicket from src/ticket.rs; the chrono timestamp is modelled as a
natural number, its value is never inspected by the pipeline. -/
structure SupportTicket where
  id : String
  content : String
  timestamp : Nat
  customer_id : String
deriving DecidableEq, Repr

/-- ProcessingResult from src/ticket.rs: Processing | Success(T) | Error. -/
inductive ProcessingResult (T : Type) where
  | Processing
  | Success (value : T)
  | Error (e : ProcessingError)
deriving DecidableEq, Repr

/-- ProcessedTicket from src/ticket.rs. -/
structure ProcessedTicket where
  ticket : SupportTicket
  language : ProcessingResult Language
  sentiment : ProcessingResult SentimentScore
  category : ProcessingResult TicketCategory
  priority : ProcessingResult TicketPriority
deriving DecidableEq, Repr

/-- ProcessedTicket::new — all four fields start Processing. -/
def ProcessedTicket.new (ticket : SupportTicket) : ProcessedTicket :=
  { ticket := ticket
    language := .Processing
    sentiment := .Processing
    category := .Processing
    priority := .Processing }

/-- ProcessedTicket::with_language. -/
def ProcessedTicket.with_language (self : ProcessedTicket)
    (language : ProcessingResult Language) : ProcessedTicket :=
  { self with language := language }

/-- ProcessedTicket::with_sentiment. -/
def ProcessedTicket.with_sentiment (self : ProcessedTicket)
    (sentiment : ProcessingResult SentimentScore) : ProcessedTicket :=
  { self with sentiment := sentiment }

/-- ProcessedTicket::with_category. -/
def ProcessedTicket.with_category (self : ProcessedTicket)
    (category : ProcessingResult TicketCategory) : ProcessedTicket :=
  { self with category := category }

/-- ProcessedTicket::with_priority. -/
def ProcessedTicket.with_priority (self : ProcessedTicket)
    (priority : ProcessingResult TicketPriority) : ProcessedTicket :=
  { self with priority := priority }

/-- ProcessedTicket::merge_from — for each field, a Processing incoming value
leaves the target unchanged, anything else replaces it. -/
def ProcessedTicket.merge_from (self other : ProcessedTicket) : ProcessedTicket :=
  { self with
    language := match other.language with
      | .Processing => self.language
      | l => l
    sentiment := match other.sentiment with
      | .Processing => self.sentiment
      | s => s
    category := match other.category with
      | .Processing => self.category
      | c => c
    priority := match other.priority with
      | .Processing => self.priority
      | p => p }

/-- FieldMask from src/pipeline.rs: a bitflags set over u32. All constructed
masks fit in the low four bits, so plain Nat bitwise operations coincide with
the u32 ones. -/
structure FieldMask where
  bits : Nat
deriving DecidableEq, Repr

namespace FieldMask

def LANGUAGE : FieldMask := ⟨1⟩

def SENTIMENT : FieldMask := ⟨2⟩

def CATEGORY : FieldMask := ⟨4⟩

def PRIORITY : FieldMask := ⟨8⟩

/-- bitflags empty(). -/
def empty : FieldMask := ⟨0⟩

/-- bitflags all(): the union of the four defined flags. -/
def all : FieldMask := ⟨15⟩

/-- bitflags union. -/
def union (a b : FieldMask) : FieldMask := ⟨a.bits ||| b.bits⟩

/-- bitflags insert (in-place union in Rust). -/
def insert (a b : FieldMask) : FieldMask := union a b

/-- bitflags contains: a holds every bit of b. -/
def contains (a b : FieldMask) : Bool := a.bits &&& b.bits == b.bits

/-- bitflags intersects: a and b share at least one bit. -/
def intersects (a b : FieldMask) : Bool := a.bits &&& b.bits != 0

end FieldMask

/-- impl From of ProcessedTicket for FieldMask (src/pipeline.rs lines 190-211):
insert a bit for each field whose result is not Processing. -/
def FieldMask.fromTicket (ticket : ProcessedTicket) : FieldMask :=
  let mask := FieldMask.empty
  let mask := match ticket.language with
    | .Processing => mask
    | _ => mask.insert FieldMask.LANGUAGE
  let mask := match ticket.sentiment with
    | .Processing => mask
    | _ => mask.insert FieldMask.SENTIMENT
  let mask := match ticket.category with
    | .Processing => mask
    | _ => mask.insert FieldMask.CATEGORY
  let mask := match ticket.priority with
    | .Processing => mask
    | _ => mask.insert FieldMask.PRIORITY
  mask

/-- A result counts as completed when it is not Processing. -/
def ProcessingResult.nonPending {T : Type} : ProcessingResult T → Bool
  | .Processing => false
  | _ => true

/-- A result is Success. -/
def ProcessingResult.isSuccess {T : Type} : ProcessingResult T → Bool
  | .Success _ => true
  | _ => false

/-- Build a mask from four field-completion flags, in bit order LANGUAGE,
SENTIMENT, CATEGORY, PRIORITY. -/
def FieldMask.ofFlags (l s c p : Bool) : FieldMask :=
  ⟨(cond l 1 0) ||| (cond s 2 0) ||| (cond c 4 0) ||| (cond p 8 0)⟩

theorem nonPending_iff {T : Type} (r : ProcessingResult T) :
    r.nonPending = true ↔ r ≠ .Processing := by
  cases r <;> simp [ProcessingResult.nonPending]

theorem fromTicket_eq_ofFlags (t : ProcessedTicket) :
    FieldMask.fromTicket t =
      FieldMask.ofFlags t.language.nonPending t.sentiment.nonPending
        t.category.nonPending t.priority.nonPending := by
  obtain ⟨tk, l, s, c, p⟩ := t
  cases l <;> cases s <;> cases c <;> cases p <;>
    simp [FieldMask.fromTicket, FieldMask.ofFlags, FieldMask.insert,
      FieldMask.union, FieldMask.empty, FieldMask.LANGUAGE, FieldMask.SENTIMENT,
      FieldMask.CATEGORY, FieldMask.PRIORITY, ProcessingResult.nonPending]

theorem ofFlags_contains_LANGUAGE (l s c p : Bool) :
    (FieldMask.ofFlags l s c p).contains FieldMask.LANGUAGE = l := by
  revert l s c p; decide

theorem ofFlags_contains_SENTIMENT (l s c p : Bool) :
    (FieldMask.ofFlags l s c p).contains FieldMask.SENTIMENT = s := by
  revert l s c p; decide

theorem ofFlags_contains_CATEGORY (l s c p : Bool) :
    (FieldMask.ofFlags l s c p).contains FieldMask.CATEGORY = c := by
  revert l s c p; decide

theorem ofFlags_contains_PRIORITY (l s c p : Bool) :
    (FieldMask.ofFlags l s c p).contains FieldMask.PRIORITY = p := by
  revert l s c p; decide

theorem all_contains_ofFlags (l s c p : Bool) :
    FieldMask.all.contains (FieldMask.ofFlags l s c p) = true := by
  revert l s c p; decide

/-- C1: FieldMask::from of a ProcessedTicket contains the LANGUAGE, SENTIMENT,
CATEGORY, PRIORITY bit exactly when the corresponding field is not Processing,
and sets no bit outside the four defined flags (the mask is contained in
FieldMask::all). -/
theorem fieldMask_from_characterisation (t : ProcessedTicket) :
    ((FieldMask.fromTicket t).contains FieldMask.LANGUAGE = true ↔
        t.language ≠ .Processing) ∧
    ((FieldMask.fromTicket t).contains FieldMask.SENTIMENT = true ↔
        t.sentiment ≠ .Processing) ∧
    ((FieldMask.fromTicket t).contains FieldMask.CATEGORY = true ↔
        t.category ≠ .Processing) ∧
    ((FieldMask.fromTicket t).contains FieldMask.PRIORITY = true ↔
        t.priority ≠ .Processing) ∧
    FieldMask.all.contains (FieldMask.fromTicket t) = true := by
  rw [fromTicket_eq_ofFlags]
  refine ⟨?_, ?_, ?_, ?_, ?_⟩
  · rw [ofFlags_contains_LANGUAGE]; exact nonPending_iff t.language
  · rw [ofFlags_contains_SENTIMENT]; exact nonPending_iff t.sentiment
  · rw [ofFlags_contains_CATEGORY]; exact nonPending_iff t.category
  · rw [ofFlags_contains_PRIORITY]; exact nonPending_iff t.priority
  · exact all_contains_ofFlags _ _ _ _

/-- A concrete instance of the mask characterisation, at a ticket with
language completed and the other three fields still Processing. -/
theorem fieldMask_from_characterisation_witness :
    ((FieldMask.fromTicket
        { ticket := ⟨"t1", "hola", 0, "c1"⟩
          language := .Success .Spanish
          sentiment := .Processing
          category := .Processing
          priority := .Processing }).contains FieldMask.LANGUAGE = true ↔
      (ProcessingResult.Success Language.Spanish ≠ .Processing)) ∧
    ((FieldMask.fromTicket
        { ticket := ⟨"t1", "hola", 0, "c1"⟩
          language := .Success .Spanish
          sentiment := .Processing
          category := .Processing
          priority := .Processing }).contains FieldMask.SENTIMENT = true ↔
      ((ProcessingResult.Processing : ProcessingResult SentimentScore) ≠
        .Processing)) ∧
    ((FieldMask.fromTicket
        { ticket := ⟨"t1", "hola", 0, "c1"⟩
          language := .Success .Spanish
          sentiment := .Processing
          category := .Processing
          priority := .Processing }).contains FieldMask.CATEGORY = true ↔
      ((ProcessingResult.Processing : ProcessingResult TicketCategory) ≠
        .Processing)) ∧
    ((FieldMask.fromTicket
        { ticket := ⟨"t1", "hola", 0, "c1"⟩
          language := .Success .Spanish
          sentiment := .Processing
          category := .Processing
          priority := .Processing }).contains FieldMask.PRIORITY = true ↔
      ((ProcessingResult.Processing : ProcessingResult TicketPriority) ≠
        .Processing)) ∧
    FieldMask.all.contains (FieldMask.fromTicket
        { ticket := ⟨"t1", "hola", 0, "c1"⟩
          language := .Success .Spanish
          sentiment := .Processing
          category := .Processing
          priority := .Processing }) = true :=
  fieldMask_from_characterisation _

/-- C3: merge_from acts independently on each of the four fields: a Processing
incoming field leaves the target field unchanged, any other incoming field
replaces the target field; the source ticket of the target is kept. In
particular a Processing incoming field never overwrites a completed target
field. -/
theorem merge_from_fieldwise (t u : ProcessedTicket) :
    (t.merge_from u).ticket = t.ticket ∧
    (t.merge_from u).language =
      (if u.language = .Processing then t.language else u.language) ∧
    (t.merge_from u).sentiment =
      (if u.sentiment = .Processing then t.sentiment else u.sentiment) ∧
    (t.merge_from u).category =
      (if u.category = .Processing then t.category else u.category) ∧
    (t.merge_from u).priority =
      (if u.priority = .Processing then t.priority else u.priority) := by
  refine ⟨rfl, ?_, ?_, ?_, ?_⟩ <;>
    · simp only [ProcessedTicket.merge_from]
      split <;> simp_all

/-- A concrete instance of the field-wise merge description: a target with a
completed language merged with an incoming record that completes only the
sentiment keeps its language and takes the incoming sentiment. -/
theorem merge_from_fieldwise_witness :
    (ProcessedTicket.merge_from
        { ticket := ⟨"t1", "text", 0, "c1"⟩
          language := .Success .English
          sentiment := .Processing
          category := .Processing
          priority := .Processing }
        { ticket := ⟨"t1", "text", 0, "c1"⟩
          language := .Processing
          sentiment := .Success ⟨.Negative, (9 : Rat)/10⟩
          category := .Processing
          priority := .Processing }).language = .Success .English ∧
    (ProcessedTicket.merge_from
        { ticket := ⟨"t1", "text", 0, "c1"⟩
          language := .Success .English
          sentiment := .Processing
          category := .Processing
          priority := .Processing }
        { ticket := ⟨"t1", "text", 0, "c1"⟩
          language := .Processing
          sentiment := .Success ⟨.Negative, (9 : Rat)/10⟩
          category := .Processing
          priority := .Processing }).sentiment =
      .Success ⟨.Negative, (9 : Rat)/10⟩ := by
  have h := merge_from_fieldwise
    { ticket := ⟨"t1", "text", 0, "c1"⟩
      language := .Success .English
      sentiment := .Processing
      category := .Processing
      priority := .Processing }
    { ticket := ⟨"t1", "text", 0, "c1"⟩
      language := .Processing
      sentiment := .Success ⟨.Negative, (9 : Rat)/10⟩
      category := .Processing
      priority := .Processing }
  refine ⟨h.2.1.trans (by simp), h.2.2.1.trans (by simp)⟩

/-- C8: merge_from is idempotent: merging the same incoming record a second
time into an already-merged target changes nothing. -/
theorem merge_from_idempotent (t u : ProcessedTicket) :
    (t.merge_from u).merge_from u = t.merge_from u := by
  obtain ⟨tk, l, s, c, p⟩ := t
  obtain ⟨tk2, l2, s2, c2, p2⟩ := u
  simp only [ProcessedTicket.merge_from]
  cases l2 <;> cases s2 <;> cases c2 <;> cases p2 <;> rfl

/-- get_category_priority_weight from src/processors/priority.rs. -/
def get_category_priority_weight (category : TicketCategory) : Nat :=
  match category with
  | .Billing => 7
  | .Account => 6
  | .Technical => 8
  | .Sales => 4
  | .Feedback => 2
  | .General => 3
  | .Other => 3

/-- get_sentiment_priority_multiplier from src/processors/priority.rs
(f32 constants modelled as rationals). -/
def get_sentiment_priority_multiplier (sentiment_label : SentimentLabel) : Rat :=
  match sentiment_label with
  | .VeryNegative => 1.5
  | .Negative => 1.3
  | .Neutral => 1.0
  | .Positive => 0.8
  | .VeryPositive => 0.6

/-- calculate_priority_from_sentiment_and_category from
src/processors/priority.rs, with f32 arithmetic modelled over Rat. -/
def calculate_priority_from_sentiment_and_category (sentiment : SentimentScore)
    (category : TicketCategory) : TicketPriority :=
  let category_weight : Rat := (get_category_priority_weight category : Nat)
  let sentiment_multiplier := get_sentiment_priority_multiplier sentiment.label
  let confidence_boost : Rat :=
    if (sentiment.label = .Negative ∨ sentiment.label = .VeryNegative) ∧
        sentiment.confidence > 0.8 then 1.2 else 1.0
  let final_score := category_weight * sentiment_multiplier * confidence_boost
  if final_score ≥ 10.0 then .Critical
  else if final_score ≥ 7.0 then .High
  else if final_score ≥ 4.0 then .Medium
  else .Low

/-- PriorityProcessor::calculate_priority: Success only when both sentiment
and category are Success, otherwise a PriorityCalculationError. -/
def PriorityProcessor.calculate_priority (ticket : ProcessedTicket) :
    ProcessingResult TicketPriority :=
  match ticket.sentiment, ticket.category with
  | .Success sentiment, .Success category =>
    .Success (calculate_priority_from_sentiment_and_category sentiment category)
  | _, _ =>
    .Error (.PriorityCalculationError
      "Insufficient data to calculate priority - both sentiment and category are required")

/-- C7: when sentiment and category are both terminal but not both Success,
calculate_priority yields a terminal PriorityCalculationError, never
Processing; and it yields Success only when both sentiment and category are
Success. -/
theorem calculate_priority_error_cases (t : ProcessedTicket) :
    ((t.sentiment ≠ .Processing ∧ t.category ≠ .Processing ∧
        ¬(t.sentiment.isSuccess = true ∧ t.category.isSuccess = true)) →
      PriorityProcessor.calculate_priority t =
        .Error (.PriorityCalculationError
          "Insufficient data to calculate priority - both sentiment and category are required")) ∧
    (∀ p, PriorityProcessor.calculate_priority t = .Success p →
      (∃ s, t.sentiment = .Success s) ∧ (∃ c, t.category = .Success c)) := by
  constructor
  · rintro ⟨hs, hc, hns⟩
    unfold PriorityProcessor.calculate_priority
    split
    · rename_i sv cv hseq hceq
      exact absurd ⟨by rw [hseq]; rfl, by rw [hceq]; rfl⟩ hns
    · rfl
  · intro p hp
    unfold PriorityProcessor.calculate_priority at hp
    split at hp
    · rename_i sv cv hseq hceq
      exact ⟨⟨sv, hseq⟩, ⟨cv, hceq⟩⟩
    · cases hp

/-- A concrete instance: sentiment resolved to an Error and category to a
Success gives priority a terminal PriorityCalculationError. -/
theorem calculate_priority_error_cases_witness :
    PriorityProcessor.calculate_priority
        { ticket := ⟨"t1", "text", 0, "c1"⟩
          language := .Processing
          sentiment := .Error (.SentimentAnalysis "HTTP error")
          category := .Success .Technical
          priority := .Processing } =
      .Error (.PriorityCalculationError
        "Insufficient data to calculate priority - both sentiment and category are required") :=
  (calculate_priority_error_cases
    { ticket := ⟨"t1", "text", 0, "c1"⟩
      language := .Processing
      sentiment := .Error (.SentimentAnalysis "HTTP error")
      category := .Success .Technical
      priority := .Processing }).1
    ⟨by simp, by simp, by simp [ProcessingResult.isSuccess]⟩

/-- C9: the priority heuristic is a pure function and yields the four
reference values: (VeryNegative, 0.9, Technical) gives Critical,
(Negative, 0.8, Billing) gives High, (Neutral, 0.7, Account) gives Medium,
(Positive, 0.8, Feedback) gives Low. -/
theorem calculate_priority_reference_values :
    calculate_priority_from_sentiment_and_category ⟨.VeryNegative, 0.9⟩
        .Technical = .Critical ∧
    calculate_priority_from_sentiment_and_category ⟨.Negative, 0.8⟩
        .Billing = .High ∧
    calculate_priority_from_sentiment_and_category ⟨.Neutral, 0.7⟩
        .Account = .Medium ∧
    calculate_priority_from_sentiment_and_category ⟨.Positive, 0.8⟩
        .Feedback = .Low := by
  refine ⟨?_, ?_, ?_, ?_⟩ <;>
    norm_num [calculate_priority_from_sentiment_and_category,
      get_category_priority_weight, get_sentiment_priority_multiplier]

/-- impl From of a string slice for SentimentLabel (src/ticket.rs lines
114-125): five recognised labels, everything else defaults to Neutral. -/
def SentimentLabel.fromStr (label : String) : SentimentLabel :=
  if label = "Very Positive" then .VeryPositive
  else if label = "Positive" then .Positive
  else if label = "Neutral" then .Neutral
  else if label = "Negative" then .Negative
  else if label = "Very Negative" then .VeryNegative
  else .Neutral

/-- HuggingFaceResponse from src/processors/sentiment.rs; score (f32)
modelled as Rat. -/
structure HuggingFaceResponse where
  label : String
  score : Rat
deriving DecidableEq, Repr

/-- The response-handling tail of SentimentProcessor::analyze_sentiment
(src/processors/sentiment.rs lines 87-95): take the first entry of the first
inner list, or report an invalid format; on success build a SentimentScore
from the label string and the score. -/
def sentimentFromParsed (parsed : List (List HuggingFaceResponse)) :
    Except ProcessingError SentimentScore :=
  match parsed.head? >>= List.head? with
  | none => .error (.SentimentAnalysis "Invalid response format")
  | some r => .ok ⟨SentimentLabel.fromStr r.label, r.score⟩

/-- The TicketProcessor trait from src/pipeline.rs: a process function plus
required and output field masks. -/
structure TicketProcessor where
  process : ProcessedTicket → ProcessedTicket
  required_fields : FieldMask
  output_fields : FieldMask

/-- LanguageProcessor (src/processors/language.rs); the whatlang detect call
composed with to_language_enum is passed in as a function. -/
def LanguageProcessor.processor (detect : String → Option Language) :
    TicketProcessor where
  process := fun ticket =>
    ticket.with_language
      (match detect ticket.ticket.content with
        | some lang => .Success lang
        | none => .Error .LanguageDetectionError)
  required_fields := FieldMask.empty
  output_fields := FieldMask.LANGUAGE

/-- SentimentProcessor (src/processors/sentiment.rs); the HTTP call is passed
in as a function from the ticket content to the analysis outcome. -/
def SentimentProcessor.processor
    (analyze_sentiment : String → Except ProcessingError SentimentScore) :
    TicketProcessor where
  process := fun ticket =>
    ticket.with_sentiment
      (match analyze_sentiment ticket.ticket.content with
        | .ok sentiment => .Success sentiment
        | .error err => .Error err)
  required_fields := FieldMask.empty
  output_fields := FieldMask.SENTIMENT

/-- ClassificationProcessor (src/processors/classification.rs); the LLM call
is passed in as a function from the ticket content to the classification
outcome. -/
def ClassificationProcessor.processor
    (classify_ticket : String → Except ProcessingError TicketCategory) :
    TicketProcessor where
  process := fun ticket =>
    ticket.with_category
      (match classify_ticket ticket.ticket.content with
        | .ok category => .Success category
        | .error e => .Error e)
  required_fields := FieldMask.empty
  output_fields := FieldMask.CATEGORY

/-- PriorityProcessor (src/processors/priority.rs): pure, requires sentiment
and category, produces priority. -/
def PriorityProcessor.processor : TicketProcessor where
  process := fun ticket =>
    ticket.with_priority (PriorityProcessor.calculate_priority ticket)
  required_fields := FieldMask.union FieldMask.SENTIMENT FieldMask.CATEGORY
  output_fields := FieldMask.PRIORITY

/-- C6 counterexample: process does not return all non-output fields as
Processing. The language processor, applied to a snapshot whose sentiment is
already a Success, returns a record whose sentiment field is that same
Success, not Processing. -/
theorem language_process_keeps_completed_sentiment :
    ((LanguageProcessor.processor (fun _ => some .English)).process
        { ticket := ⟨"t1", "hello", 0, "c1"⟩
          language := .Processing
          sentiment := .Success ⟨.Neutral, 1⟩
          category := .Processing
          priority := .Processing }).sentiment = .Success ⟨.Neutral, 1⟩ ∧
    (ProcessingResult.Success (⟨.Neutral, 1⟩ : SentimentScore)) ≠
      .Processing := by
  exact ⟨rfl, by simp⟩

/-- C6 amended: for each of the four configured processors and every input
snapshot, the returned record carries a terminal result (Success or Error,
never Processing) in the declared output field, and every other field of the
returned record equals the corresponding field of the input snapshot. -/
theorem processors_output_terminal_rest_unchanged
    (detect : String → Option Language)
    (analyze_sentiment : String → Except ProcessingError SentimentScore)
    (classify_ticket : String → Except ProcessingError TicketCategory)
    (t : ProcessedTicket) :
    (((LanguageProcessor.processor detect).process t).language.nonPending =
        true ∧
      ((LanguageProcessor.processor detect).process t).sentiment =
        t.sentiment ∧
      ((LanguageProcessor.processor detect).process t).category = t.category ∧
      ((LanguageProcessor.processor detect).process t).priority =
        t.priority) ∧
    (((SentimentProcessor.processor analyze_sentiment).process
          t).sentiment.nonPending = true ∧
      ((SentimentProcessor.processor analyze_sentiment).process t).language =
        t.language ∧
      ((SentimentProcessor.processor analyze_sentiment).process t).category =
        t.category ∧
      ((SentimentProcessor.processor analyze_sentiment).process t).priority =
        t.priority) ∧
    (((ClassificationProcessor.processor classify_ticket).process
          t).category.nonPending = true ∧
      ((ClassificationProcessor.processor classify_ticket).process
          t).language = t.language ∧
      ((ClassificationProcessor.processor classify_ticket).process
          t).sentiment = t.sentiment ∧
      ((ClassificationProcessor.processor classify_ticket).process
          t).priority = t.priority) ∧
    ((PriorityProcessor.processor.process t).priority.nonPending = true ∧
      (PriorityProcessor.processor.process t).language = t.language ∧
      (PriorityProcessor.processor.process t).sentiment = t.sentiment ∧
      (PriorityProcessor.processor.process t).category = t.category) := by
  refine ⟨⟨?_, rfl, rfl, rfl⟩, ⟨?_, rfl, rfl, rfl⟩, ⟨?_, rfl, rfl, rfl⟩,
    ⟨?_, rfl, rfl, rfl⟩⟩
  · simp only [LanguageProcessor.processor, ProcessedTicket.with_language]
    cases detect t.ticket.content <;> rfl
  · simp only [SentimentProcessor.processor, ProcessedTicket.with_sentiment]
    cases analyze_sentiment t.ticket.content <;> rfl
  · simp only [ClassificationProcessor.processor,
      ProcessedTicket.with_category]
    cases classify_ticket t.ticket.content <;> rfl
  · simp only [PriorityProcessor.processor, ProcessedTicket.with_priority]
    unfold PriorityProcessor.calculate_priority
    split <;> rfl

/-- C10: every label string other than the five recognised ones maps to
SentimentLabel Neutral, and a parsed sentiment response carrying such a label
yields a successful SentimentScore with label Neutral (never an error for the
sentiment field); run through the sentiment processor it lands in the
sentiment field as a Success. -/
theorem unknown_label_defaults_to_neutral (label : String) (score : Rat)
    (t : ProcessedTicket)
    (h : label ≠ "Very Positive" ∧ label ≠ "Positive" ∧ label ≠ "Neutral" ∧
      label ≠ "Negative" ∧ label ≠ "Very Negative") :
    SentimentLabel.fromStr label = .Neutral ∧
    sentimentFromParsed [[⟨label, score⟩]] = .ok ⟨.Neutral, score⟩ ∧
    ((SentimentProcessor.processor
        (fun _ => sentimentFromParsed [[⟨label, score⟩]])).process t).sentiment =
      .Success ⟨.Neutral, score⟩ := by
  obtain ⟨h1, h2, h3, h4, h5⟩ := h
  have hfrom : SentimentLabel.fromStr label = .Neutral := by
    simp [SentimentLabel.fromStr, h1, h2, h3, h4, h5]
  have hparsed : sentimentFromParsed [[⟨label, score⟩]] =
      .ok ⟨.Neutral, score⟩ := by
    simp [sentimentFromParsed, hfrom]
  refine ⟨hfrom, hparsed, ?_⟩
  simp [SentimentProcessor.processor, ProcessedTicket.with_sentiment, hparsed]

/-- A concrete instance: an unrecognised label string from the sentiment API
becomes a Success with label Neutral. -/
theorem unknown_label_defaults_to_neutral_witness :
    SentimentLabel.fromStr "Mixed" = .Neutral ∧
    sentimentFromParsed [[⟨"Mixed", (1 : Rat)/2⟩]] =
      .ok ⟨.Neutral, (1 : Rat)/2⟩ ∧
    ((SentimentProcessor.processor
        (fun _ => sentimentFromParsed [[⟨"Mixed", (1 : Rat)/2⟩]])).process
          (ProcessedTicket.new ⟨"t1", "text", 0, "c1"⟩)).sentiment =
      .Success ⟨.Neutral, (1 : Rat)/2⟩ :=
  unknown_label_defaults_to_neutral "Mixed" ((1 : Rat)/2)
    (ProcessedTicket.new ⟨"t1", "text", 0, "c1"⟩)
    ⟨by decide, by decide, by decide, by decide, by decide⟩

/-- TicketStore from src/ticket_store.rs: a keyed map from ticket id to
ProcessedTicket, modelled as a function to Option. The RwLock serialises all
access, so each store operation is a single atomic step. -/
structure TicketStore where
  tickets : String → Option ProcessedTicket

/-- TicketStore::get_ticket. -/
def TicketStore.get_ticket (s : TicketStore) (id : String) :
    Option ProcessedTicket :=
  s.tickets id

/-- TicketStore::add_ticket — insert under the id of the contained
SupportTicket, overwriting any existing entry. -/
def TicketStore.add_ticket (s : TicketStore) (ticket : ProcessedTicket) :
    TicketStore :=
  ⟨fun key => if key = ticket.ticket.id then some ticket else s.tickets key⟩

/-- TicketStore::update_ticket — atomically apply the updater to the stored
record under the id, returning the updated snapshot, or none if the id is
absent. -/
def TicketStore.update_ticket (s : TicketStore) (id : String)
    (updater : ProcessedTicket → ProcessedTicket) :
    Option ProcessedTicket × TicketStore :=
  match s.tickets id with
  | none => (none, s)
  | some t =>
    let updated := updater t
    (some updated,
      ⟨fun key => if key = id then some updated else s.tickets key⟩)

/-- TicketUpdateEvent from src/pipeline.rs. -/
structure TicketUpdateEvent where
  ticket_id : String
  completed_fields : FieldMask
deriving DecidableEq, Repr

/-- The outcome of handling one delivered event in the per-processor reactive
task: the store afterwards, the event published (if any), and whether the
process function was invoked. -/
structure UnitStepResult where
  store : TicketStore
  published : Option TicketUpdateEvent
  invoked : Bool

/-- The body of the per-processor reactive task in TicketPipeline::run
(src/pipeline.rs lines 60-103) for one received event: look up the record,
evaluate the gating predicate (dependencies met and output fields not yet
set), and if it holds invoke process, merge the result into the store, and
publish an event carrying FieldMask::from of the processor output when the
record was still present. -/
def unitStep (processor : TicketProcessor) (store : TicketStore)
    (event : TicketUpdateEvent) : UnitStepResult :=
  let required_fields := processor.required_fields
  match store.get_ticket event.ticket_id with
  | none => ⟨store, none, false⟩
  | some ticket =>
    let current_fields := FieldMask.fromTicket ticket
    let dependencies_met := current_fields.contains required_fields
    let processor_output_fields := processor.output_fields
    let not_yet_processed :=
      !(current_fields.intersects processor_output_fields)
    if dependencies_met && not_yet_processed then
      let ticket_id := ticket.ticket.id
      let updated_ticket := processor.process ticket
      let updated_fields := FieldMask.fromTicket updated_ticket
      let result := store.update_ticket ticket_id
        (fun t => t.merge_from updated_ticket)
      match result.1 with
      | some _ => ⟨result.2, some ⟨ticket_id, updated_fields⟩, true⟩
      | none => ⟨result.2, none, true⟩
    else ⟨store, none, false⟩

/-- C2: the reactive task invokes process only on a looked-up snapshot whose
current mask contains the required fields and is disjoint from the output
fields; when the record is present but either gate fails, the event is a
no-op for that unit (process is not invoked, the store is unchanged, nothing
is published). -/
theorem unitStep_gating (processor : TicketProcessor) (store : TicketStore)
    (event : TicketUpdateEvent) :
    ((unitStep processor store event).invoked = true →
      ∃ ticket, store.get_ticket event.ticket_id = some ticket ∧
        (FieldMask.fromTicket ticket).contains processor.required_fields =
          true ∧
        (FieldMask.fromTicket ticket).intersects processor.output_fields =
          false) ∧
    (∀ ticket, store.get_ticket event.ticket_id = some ticket →
      ((FieldMask.fromTicket ticket).contains processor.required_fields =
          false ∨
        (FieldMask.fromTicket ticket).intersects processor.output_fields =
          true) →
      (unitStep processor store event).invoked = false ∧
        (unitStep processor store event).store = store ∧
        (unitStep processor store event).published = none) := by
  constructor
  · intro hinv
    unfold unitStep at hinv
    rcases hs : store.get_ticket event.ticket_id with _ | ticket
    · rw [hs] at hinv
      simp at hinv
    · rw [hs] at hinv
      dsimp only at hinv
      by_cases hgate : ((FieldMask.fromTicket ticket).contains
          processor.required_fields &&
          !(FieldMask.fromTicket ticket).intersects
            processor.output_fields) = true
      · have hg := hgate
        simp only [Bool.and_eq_true, Bool.not_eq_true'] at hg
        exact ⟨ticket, rfl, hg.1, hg.2⟩
      · rw [if_neg (by simpa using hgate)] at hinv
        simp at hinv
  · intro ticket hget hfail
    unfold unitStep
    rw [hget]
    dsimp only
    have hgate : ((FieldMask.fromTicket ticket).contains
        processor.required_fields &&
        !(FieldMask.fromTicket ticket).intersects processor.output_fields) =
        false := by
      rcases hfail with h | h <;> simp [h]
    rw [if_neg (by simp [hgate])]
    exact ⟨rfl, rfl, rfl⟩

/-- A concrete instance of the gating theorem: a processor with no required
fields and the LANGUAGE output invokes process on a fresh all-Processing
record. -/
theorem unitStep_gating_witness :
    ∃ ticket,
      (TicketStore.mk (fun key => if key = "t1" then
          some (ProcessedTicket.new ⟨"t1", "text", 0, "c1"⟩)
        else none)).get_ticket "t1" = some ticket ∧
      (FieldMask.fromTicket ticket).contains FieldMask.empty = true ∧
      (FieldMask.fromTicket ticket).intersects FieldMask.LANGUAGE = false :=
  (unitStep_gating
    ⟨fun t => t.with_language (.Success .English), FieldMask.empty,
      FieldMask.LANGUAGE⟩
    ⟨fun key => if key = "t1" then
        some (ProcessedTicket.new ⟨"t1", "text", 0, "c1"⟩)
      else none⟩
    ⟨"t1", FieldMask.empty⟩).1 rfl

theorem ofFlags_union (a b c d a2 b2 c2 d2 : Bool) :
    FieldMask.union (FieldMask.ofFlags a b c d)
        (FieldMask.ofFlags a2 b2 c2 d2) =
      FieldMask.ofFlags (a || a2) (b || b2) (c || c2) (d || d2) := by
  revert a b c d a2 b2 c2 d2; decide

theorem ofFlags_union_eq_right (a b c d a2 b2 c2 d2 : Bool) :
    (FieldMask.ofFlags a2 b2 c2 d2).contains (FieldMask.ofFlags a b c d) =
      true →
    FieldMask.union (FieldMask.ofFlags a b c d)
        (FieldMask.ofFlags a2 b2 c2 d2) =
      FieldMask.ofFlags a2 b2 c2 d2 := by
  revert a b c d a2 b2 c2 d2; decide

theorem merge_from_nonPending (t u : ProcessedTicket) :
    (t.merge_from u).language.nonPending =
        (t.language.nonPending || u.language.nonPending) ∧
    (t.merge_from u).sentiment.nonPending =
        (t.sentiment.nonPending || u.sentiment.nonPending) ∧
    (t.merge_from u).category.nonPending =
        (t.category.nonPending || u.category.nonPending) ∧
    (t.merge_from u).priority.nonPending =
        (t.priority.nonPending || u.priority.nonPending) := by
  obtain ⟨tk, l, s, c, p⟩ := t
  obtain ⟨tk2, l2, s2, c2, p2⟩ := u
  simp only [ProcessedTicket.merge_from]
  refine ⟨?_, ?_, ?_, ?_⟩ <;>
    · dsimp only
      split <;> simp [ProcessingResult.nonPending]

/-- The completion mask of a merged record is the union of the two masks. -/
theorem fromTicket_merge_from (t u : ProcessedTicket) :
    FieldMask.fromTicket (t.merge_from u) =
      FieldMask.union (FieldMask.fromTicket t) (FieldMask.fromTicket u) := by
  obtain ⟨h1, h2, h3, h4⟩ := merge_from_nonPending t u
  rw [fromTicket_eq_ofFlags (t.merge_from u), fromTicket_eq_ofFlags t,
    fromTicket_eq_ofFlags u, h1, h2, h3, h4, ofFlags_union]

/-- C5 counterexample: the published event does not always carry the mask of
the record stored after the merge. A processor that outputs PRIORITY and
returns a record whose other fields are Processing, run against a stored
record whose language is already complete, publishes mask 8 (PRIORITY only)
while the merged stored record has mask 9 (LANGUAGE and PRIORITY). -/
theorem unitStep_publishes_premerge_mask :
    ((unitStep
        ⟨fun t =>
          { ticket := t.ticket
            language := .Processing
            sentiment := .Processing
            category := .Processing
            priority := .Success .Low },
          FieldMask.empty, FieldMask.PRIORITY⟩
        ⟨fun key => if key = "t1" then
            some { ticket := ⟨"t1", "text", 0, "c1"⟩
                   language := .Success .English
                   sentiment := .Processing
                   category := .Processing
                   priority := .Processing }
          else none⟩
        ⟨"t1", FieldMask.LANGUAGE⟩).published.map
          TicketUpdateEvent.completed_fields) = some ⟨8⟩ ∧
    (((unitStep
        ⟨fun t =>
          { ticket := t.ticket
            language := .Processing
            sentiment := .Processing
            category := .Processing
            priority := .Success .Low },
          FieldMask.empty, FieldMask.PRIORITY⟩
        ⟨fun key => if key = "t1" then
            some { ticket := ⟨"t1", "text", 0, "c1"⟩
                   language := .Success .English
                   sentiment := .Processing
                   category := .Processing
                   priority := .Processing }
          else none⟩
        ⟨"t1", FieldMask.LANGUAGE⟩).store.get_ticket "t1").map
          FieldMask.fromTicket) = some ⟨9⟩ ∧
    (⟨8⟩ : FieldMask) ≠ ⟨9⟩ := by
  refine ⟨rfl, rfl, by decide⟩

/-- C5 amended: whenever the unit task publishes an event, the event carries
FieldMask::from of the record returned by process, computed before the merge;
when that mask contains the mask of the snapshot the processor ran on (as
holds for the repository processors, which return the snapshot with one field
overwritten), it coincides with the mask of the record stored immediately
after the atomic merge. -/
theorem unitStep_published_mask (processor : TicketProcessor)
    (store : TicketStore) (event : TicketUpdateEvent) (e : TicketUpdateEvent)
    (ticket : ProcessedTicket)
    (hget : store.get_ticket event.ticket_id = some ticket)
    (hid : ticket.ticket.id = event.ticket_id)
    (hpub : (unitStep processor store event).published = some e) :
    e.completed_fields = FieldMask.fromTicket (processor.process ticket) ∧
    ((FieldMask.fromTicket (processor.process ticket)).contains
        (FieldMask.fromTicket ticket) = true →
      (unitStep processor store event).store.get_ticket event.ticket_id =
          some (ticket.merge_from (processor.process ticket)) ∧
      e.completed_fields =
        FieldMask.fromTicket
          (ticket.merge_from (processor.process ticket))) := by
  have htickets : store.tickets event.ticket_id = some ticket := hget
  have hgate : ((FieldMask.fromTicket ticket).contains
      processor.required_fields &&
      !(FieldMask.fromTicket ticket).intersects processor.output_fields) =
      true := by
    by_contra h
    unfold unitStep at hpub
    rw [hget] at hpub
    dsimp only at hpub
    rw [if_neg h] at hpub
    cases hpub
  have hupd : store.update_ticket ticket.ticket.id
      (fun t => t.merge_from (processor.process ticket)) =
      (some (ticket.merge_from (processor.process ticket)),
        ⟨fun key => if key = ticket.ticket.id then
            some (ticket.merge_from (processor.process ticket))
          else store.tickets key⟩) := by
    unfold TicketStore.update_ticket
    rw [hid, htickets]
  have hstep : unitStep processor store event =
      ⟨⟨fun key => if key = ticket.ticket.id then
            some (ticket.merge_from (processor.process ticket))
          else store.tickets key⟩,
        some ⟨ticket.ticket.id,
          FieldMask.fromTicket (processor.process ticket)⟩, true⟩ := by
    unfold unitStep
    rw [hget]
    dsimp only
    rw [if_pos hgate, hupd]
  rw [hstep] at hpub
  dsimp only at hpub
  injection hpub with hpub
  subst hpub
  refine ⟨rfl, fun hmask => ⟨?_, ?_⟩⟩
  · rw [hstep]
    show (if event.ticket_id = ticket.ticket.id then _ else _) = _
    rw [if_pos hid.symm]
  · rw [fromTicket_merge_from]
    rw [fromTicket_eq_ofFlags, fromTicket_eq_ofFlags] at hmask ⊢
    exact (ofFlags_union_eq_right _ _ _ _ _ _ _ _ hmask).symm

/-- A concrete instance of the amended publication property: the language
processor run on a fresh record publishes mask 1, which equals the mask of
the merged stored record. -/
theorem unitStep_published_mask_witness :
    (TicketUpdateEvent.mk "t1"
        (FieldMask.fromTicket
          ((ProcessedTicket.new ⟨"t1", "text", 0, "c1"⟩).with_language
            (.Success .English)))).completed_fields =
      FieldMask.fromTicket
        ((ProcessedTicket.new ⟨"t1", "text", 0, "c1"⟩).with_language
          (.Success .English)) ∧
    ((FieldMask.fromTicket
        ((ProcessedTicket.new ⟨"t1", "text", 0, "c1"⟩).with_language
          (.Success .English))).contains
        (FieldMask.fromTicket (ProcessedTicket.new ⟨"t1", "text", 0, "c1"⟩)) =
        true →
      (unitStep
          ⟨fun t => t.with_language (.Success .English), FieldMask.empty,
            FieldMask.LANGUAGE⟩
          ⟨fun key => if key = "t1" then
              some (ProcessedTicket.new ⟨"t1", "text", 0, "c1"⟩)
            else none⟩
          ⟨"t1", FieldMask.empty⟩).store.get_ticket "t1" =
          some ((ProcessedTicket.new ⟨"t1", "text", 0, "c1"⟩).merge_from
            ((ProcessedTicket.new ⟨"t1", "text", 0, "c1"⟩).with_language
              (.Success .English))) ∧
      (TicketUpdateEvent.mk "t1"
          (FieldMask.fromTicket
            ((ProcessedTicket.new ⟨"t1", "text", 0, "c1"⟩).with_language
              (.Success .English)))).completed_fields =
        FieldMask.fromTicket
          ((ProcessedTicket.new ⟨"t1", "text", 0, "c1"⟩).merge_from
            ((ProcessedTicket.new ⟨"t1", "text", 0, "c1"⟩).with_language
              (.Success .English)))) :=
  unitStep_published_mask
    ⟨fun t => t.with_language (.Success .English), FieldMask.empty,
      FieldMask.LANGUAGE⟩
    ⟨fun key => if key = "t1" then
        some (ProcessedTicket.new ⟨"t1", "text", 0, "c1"⟩)
      else none⟩
    ⟨"t1", FieldMask.empty⟩
    ⟨"t1", FieldMask.fromTicket
      ((ProcessedTicket.new ⟨"t1", "text", 0, "c1"⟩).with_language
        (.Success .English))⟩
    (ProcessedTicket.new ⟨"t1", "text", 0, "c1"⟩)
    rfl rfl rfl

theorem nat_lor_land_of_land_left (a b m : Nat) (h : a &&& m = m) :
    (a ||| b) &&& m = m := by
  apply Nat.eq_of_testBit_eq
  intro i
  have hi := congrArg (fun n => n.testBit i) h
  simp only [Nat.testBit_land, Nat.testBit_lor] at hi ⊢
  cases ha : a.testBit i <;> cases hb : b.testBit i <;>
    cases hm : m.testBit i <;> simp_all

theorem nat_lor_land_of_land_right (a b m : Nat) (h : b &&& m = m) :
    (a ||| b) &&& m = m := by
  apply Nat.eq_of_testBit_eq
  intro i
  have hi := congrArg (fun n => n.testBit i) h
  simp only [Nat.testBit_land, Nat.testBit_lor] at hi ⊢
  cases ha : a.testBit i <;> cases hb : b.testBit i <;>
    cases hm : m.testBit i <;> simp_all

theorem union_contains_left (a b M : FieldMask) (h : a.contains M = true) :
    (FieldMask.union a b).contains M = true := by
  unfold FieldMask.contains FieldMask.union at *
  simp only [beq_iff_eq] at h ⊢
  exact nat_lor_land_of_land_left a.bits b.bits M.bits h

theorem union_contains_right (a b M : FieldMask) (h : b.contains M = true) :
    (FieldMask.union a b).contains M = true := by
  unfold FieldMask.contains FieldMask.union at *
  simp only [beq_iff_eq] at h ⊢
  exact nat_lor_land_of_land_right a.bits b.bits M.bits h

/-- A scheduler trace: the delivered (processor, event) pairs are handled in
sequence, each by one reactive-task step; the result is the final store and
the list of events published along the way, in publish order. This models
the interleaving of the per-processor tasks of TicketPipeline::run, whose
store accesses are serialised by the store lock. -/
def runTrace (actions : List (TicketProcessor × TicketUpdateEvent))
    (store : TicketStore) : TicketStore × List TicketUpdateEvent :=
  match actions with
  | [] => (store, [])
  | (processor, event) :: rest =>
    let r := unitStep processor store event
    let remaining := runTrace rest r.store
    (remaining.1, r.published.toList ++ remaining.2)

/-- TicketPipeline::wait_for_processing (src/pipeline.rs lines 145-171): the
caller consumes delivered events until one matches the awaited ticket id and
carries FieldMask::all, then fetches the final snapshot from the store; an
exhausted subscription (closed channel) is a fatal orchestration error. -/
def wait_for_processing (events : List TicketUpdateEvent)
    (store : TicketStore) (ticket_id : String) :
    Except ProcessingError ProcessedTicket :=
  match events with
  | [] => .error (.TicketProcessingError "Event channel closed")
  | e :: rest =>
    if e.ticket_id = ticket_id ∧ e.completed_fields = FieldMask.all then
      match store.get_ticket ticket_id with
      | some t => .ok t
      | none => .error (.TicketProcessingError "Ticket not found")
    else wait_for_processing rest store ticket_id

/-- The store after handling one event: every key is either untouched or now
holds the previous record merged with some processor output. -/
theorem unitStep_store_lookup (processor : TicketProcessor)
    (store : TicketStore) (event : TicketUpdateEvent) (key : String) :
    (unitStep processor store event).store.get_ticket key =
      store.get_ticket key ∨
    ∃ t0 u, store.get_ticket key = some t0 ∧
      (unitStep processor store event).store.get_ticket key =
        some (t0.merge_from u) := by
  unfold unitStep
  cases hget : store.get_ticket event.ticket_id with
  | none => exact Or.inl rfl
  | some ticket =>
    dsimp only
    by_cases hgate : ((FieldMask.fromTicket ticket).contains
        processor.required_fields &&
        !(FieldMask.fromTicket ticket).intersects
          processor.output_fields) = true
    · rw [if_pos hgate]
      unfold TicketStore.update_ticket
      cases h0 : store.tickets ticket.ticket.id with
      | none => exact Or.inl rfl
      | some t0 =>
        dsimp only
        by_cases hkey : key = ticket.ticket.id
        · refine Or.inr ⟨t0, processor.process ticket, ?_, ?_⟩
          · show store.tickets key = some t0
            rw [hkey, h0]
          · show (if key = ticket.ticket.id then _ else _) = _
            rw [if_pos hkey]
        · refine Or.inl ?_
          show (if key = ticket.ticket.id then _ else store.tickets key) =
            store.get_ticket key
          rw [if_neg hkey]
          rfl
    · rw [if_neg hgate]
      exact Or.inl rfl

/-- A record whose mask contains M keeps that property across one reactive
step: merging only completes further fields. -/
theorem unitStep_preserves_contains (processor : TicketProcessor)
    (store : TicketStore) (event : TicketUpdateEvent) (key : String)
    (M : FieldMask) (t : ProcessedTicket)
    (h : store.get_ticket key = some t)
    (hc : (FieldMask.fromTicket t).contains M = true) :
    ∃ t2, (unitStep processor store event).store.get_ticket key = some t2 ∧
      (FieldMask.fromTicket t2).contains M = true := by
  rcases unitStep_store_lookup processor store event key with heq |
    ⟨t0, u, h0, h2⟩
  · exact ⟨t, heq.trans h, hc⟩
  · have ht0 : t0 = t := by
      have := h0.symm.trans h
      exact Option.some.inj this
    subst ht0
    refine ⟨t0.merge_from u, h2, ?_⟩
    rw [fromTicket_merge_from]
    exact union_contains_left _ _ _ hc

/-- Mask containment at a key is preserved by a whole trace of reactive
steps. -/
theorem runTrace_preserves_contains
    (actions : List (TicketProcessor × TicketUpdateEvent)) :
    ∀ (store : TicketStore) (key : String) (M : FieldMask)
      (t : ProcessedTicket),
      store.get_ticket key = some t →
      (FieldMask.fromTicket t).contains M = true →
      ∃ t2, (runTrace actions store).1.get_ticket key = some t2 ∧
        (FieldMask.fromTicket t2).contains M = true := by
  induction actions with
  | nil => exact fun store key M t h hc => ⟨t, h, hc⟩
  | cons a rest ih =>
    intro store key M t h hc
    obtain ⟨processor, event⟩ := a
    obtain ⟨t2, h2, hc2⟩ :=
      unitStep_preserves_contains processor store event key M t h hc
    exact ih _ key M t2 h2 hc2

theorem update_ticket_none (s : TicketStore) (id : String)
    (f : ProcessedTicket → ProcessedTicket) (h : s.tickets id = none) :
    s.update_ticket id f = (none, s) := by
  unfold TicketStore.update_ticket
  rw [h]

theorem update_ticket_some (s : TicketStore) (id : String)
    (f : ProcessedTicket → ProcessedTicket) (t0 : ProcessedTicket)
    (h : s.tickets id = some t0) :
    s.update_ticket id f =
      (some (f t0),
        ⟨fun key => if key = id then some (f t0) else s.tickets key⟩) := by
  unfold TicketStore.update_ticket
  rw [h]

/-- When a step publishes an event, the store afterwards holds, under the
published id, a record whose mask contains the published mask. -/
theorem unitStep_publish_complete (processor : TicketProcessor)
    (store : TicketStore) (event : TicketUpdateEvent) (e : TicketUpdateEvent)
    (hpub : (unitStep processor store event).published = some e) :
    ∃ t2, (unitStep processor store event).store.get_ticket e.ticket_id =
        some t2 ∧
      (FieldMask.fromTicket t2).contains e.completed_fields = true := by
  unfold unitStep at hpub ⊢
  cases hget : store.get_ticket event.ticket_id with
  | none => rw [hget] at hpub; cases hpub
  | some ticket =>
    rw [hget] at hpub
    dsimp only at hpub ⊢
    by_cases hgate : ((FieldMask.fromTicket ticket).contains
        processor.required_fields &&
        !(FieldMask.fromTicket ticket).intersects
          processor.output_fields) = true
    · rw [if_pos hgate] at hpub ⊢
      cases h0 : store.tickets ticket.ticket.id with
      | none =>
        rw [update_ticket_none store _ _ h0] at hpub
        cases hpub
      | some t0 =>
        rw [update_ticket_some store _ _ t0 h0] at hpub ⊢
        dsimp only at hpub ⊢
        injection hpub with hpub
        subst hpub
        refine ⟨t0.merge_from (processor.process ticket), ?_, ?_⟩
        · show (if ticket.ticket.id = ticket.ticket.id then _ else _) = _
          rw [if_pos rfl]
        · rw [fromTicket_merge_from]
          exact union_contains_right _ _ _ (by
            unfold FieldMask.contains
            simp)
    · rw [if_neg hgate] at hpub
      cases hpub

theorem ofFlags_contains_all_iff (a b c d : Bool) :
    (FieldMask.ofFlags a b c d).contains FieldMask.all = (a && b && c && d) := by
  revert a b c d; decide

/-- Every event published during a trace is backed, in the final store, by a
record under the published id whose mask contains the published mask. -/
theorem runTrace_event_mask
    (actions : List (TicketProcessor × TicketUpdateEvent)) :
    ∀ (store : TicketStore) (e : TicketUpdateEvent),
      e ∈ (runTrace actions store).2 →
      ∃ t2, (runTrace actions store).1.get_ticket e.ticket_id = some t2 ∧
        (FieldMask.fromTicket t2).contains e.completed_fields = true := by
  induction actions with
  | nil =>
    intro store e he
    simp [runTrace] at he
  | cons a rest ih =>
    intro store e he
    obtain ⟨processor, event⟩ := a
    rw [runTrace] at he
    dsimp only at he
    rcases List.mem_append.mp he with h1 | h2
    · have hpub : (unitStep processor store event).published = some e := by
        cases hp : (unitStep processor store event).published with
        | none => rw [hp] at h1; simp [Option.toList] at h1
        | some e2 =>
          rw [hp] at h1
          simp [Option.toList] at h1
          subst h1
          rfl
      obtain ⟨t2, h2, hc2⟩ :=
        unitStep_publish_complete processor store event e hpub
      obtain ⟨t3, h3, hc3⟩ := runTrace_preserves_contains rest
        (unitStep processor store event).store e.ticket_id
        e.completed_fields t2 h2 hc2
      exact ⟨t3, h3, hc3⟩
    · exact ih (unitStep processor store event).store e h2

/-- The wait loop succeeds only after consuming an event that matches the
awaited id and carries the all-fields mask, and then returns exactly the
snapshot fetched from the store under that id. -/
theorem wait_for_processing_ok (events : List TicketUpdateEvent)
    (store : TicketStore) (ticket_id : String) (t : ProcessedTicket)
    (h : wait_for_processing events store ticket_id = .ok t) :
    (∃ e ∈ events, e.ticket_id = ticket_id ∧
      e.completed_fields = FieldMask.all) ∧
    store.get_ticket ticket_id = some t := by
  induction events with
  | nil => cases h
  | cons e rest ih =>
    unfold wait_for_processing at h
    by_cases hc : e.ticket_id = ticket_id ∧ e.completed_fields = FieldMask.all
    · rw [if_pos hc] at h
      cases hl : store.get_ticket ticket_id with
      | none => rw [hl] at h; cases h
      | some t0 =>
        rw [hl] at h
        injection h with h
        subst h
        exact ⟨⟨e, List.mem_cons_self e rest, hc⟩, rfl⟩
    · rw [if_neg hc] at h
      obtain ⟨⟨e2, he2, hp⟩, hs⟩ := ih h
      exact ⟨⟨e2, List.mem_cons_of_mem e he2, hp⟩, hs⟩

/-- C4: over any scheduler trace, wait_for_processing returns a record for
the awaited id only once an event for that id carrying the all-fields mask
appears among the published events, and the snapshot it then returns has no
Processing field. -/
theorem wait_returns_only_on_all_complete
    (actions : List (TicketProcessor × TicketUpdateEvent))
    (store0 finalStore : TicketStore) (events : List TicketUpdateEvent)
    (ticket_id : String) (t : ProcessedTicket)
    (htrace : runTrace actions store0 = (finalStore, events))
    (hok : wait_for_processing events finalStore ticket_id = .ok t) :
    (∃ e ∈ events, e.ticket_id = ticket_id ∧
      e.completed_fields = FieldMask.all) ∧
    t.language ≠ .Processing ∧ t.sentiment ≠ .Processing ∧
    t.category ≠ .Processing ∧ t.priority ≠ .Processing := by
  obtain ⟨⟨e, he, hid, hall⟩, hlookup⟩ :=
    wait_for_processing_ok events finalStore ticket_id t hok
  refine ⟨⟨e, he, hid, hall⟩, ?_⟩
  have he2 : e ∈ (runTrace actions store0).2 := by rw [htrace]; exact he
  obtain ⟨t2, h2, hc2⟩ := runTrace_event_mask actions store0 e he2
  rw [htrace] at h2
  dsimp only at h2
  rw [hid, hlookup] at h2
  have ht2 : t2 = t := Option.some.inj h2.symm
  subst ht2
  rw [hall] at hc2
  rw [fromTicket_eq_ofFlags, ofFlags_contains_all_iff] at hc2
  simp only [Bool.and_eq_true] at hc2
  obtain ⟨⟨⟨hl1, hl2⟩, hl3⟩, hl4⟩ := hc2
  exact ⟨(nonPending_iff _).mp hl1, (nonPending_iff _).mp hl2,
    (nonPending_iff _).mp hl3, (nonPending_iff _).mp hl4⟩

/-- A processor completing all four fields in one step, for the concrete
trace below. -/
def traceProcessor : TicketProcessor :=
  ⟨fun t =>
    { ticket := t.ticket
      language := .Success .English
      sentiment := .Success ⟨.Neutral, 1⟩
      category := .Success .General
      priority := .Success .Low },
    FieldMask.empty, FieldMask.all⟩

/-- A store holding one freshly submitted record under id t1. -/
def traceInitialStore : TicketStore :=
  ⟨fun key => if key = "t1" then
      some (ProcessedTicket.new ⟨"t1", "text", 0, "c1"⟩)
    else none⟩

/-- One delivered seed event handled by the completing processor. -/
def traceActions : List (TicketProcessor × TicketUpdateEvent) :=
  [(traceProcessor, ⟨"t1", FieldMask.empty⟩)]

/-- The snapshot stored for t1 after the trace. -/
def traceFinalTicket : ProcessedTicket :=
  { ticket := ⟨"t1", "text", 0, "c1"⟩
    language := .Success .English
    sentiment := .Success ⟨.Neutral, 1⟩
    category := .Success .General
    priority := .Success .Low }

/-- A concrete instance of the convergence property: on a one-step trace that
completes every field of record t1, the wait loop finds the all-fields event
and the returned snapshot has no Processing field. -/
theorem wait_returns_only_on_all_complete_witness :
    (∃ e ∈ (runTrace traceActions traceInitialStore).2,
        e.ticket_id = "t1" ∧ e.completed_fields = FieldMask.all) ∧
    traceFinalTicket.language ≠ .Processing ∧
    traceFinalTicket.sentiment ≠ .Processing ∧
    traceFinalTicket.category ≠ .Processing ∧
    traceFinalTicket.priority ≠ .Processing :=
  wait_returns_only_on_all_complete traceActions traceInitialStore
    (runTrace traceActions traceInitialStore).1
    (runTrace traceActions traceInitialStore).2
    "t1" traceFinalTicket rfl rfl

end TicketTriage
